import Mathlib

/-!
Verification development for `scripts/fetch_podcasts.py`: a shallow
embedding of the episode extraction and deduplication pipeline, together
with theorems settling the specification claims.

Modelling conventions:
* Python strings are Lean `String`s; character-level operations work on
  `String.data` (lists of characters), matching Python's code-point view.
* Python regex character classes (`\w`, `\s`) and `str.lower`/`str.strip`
  are modelled over the ASCII range, which covers the repository's data;
  theorems whose truth would depend on non-ASCII code points carry an
  explicit ASCII hypothesis.
* An XML element that may be absent is an outer `Option`; ElementTree
  yields `.text = None` for an element with no text node, modelled by an
  inner `Option String`.
* The one uncaught exception path in extraction (a `TypeError` from
  `datetime.strptime(None, ...)`) is modelled by `Except Unit`.
-/

set_option maxRecDepth 4000

namespace FetchPodcasts

/-- Model of Python's `\s` class (`re` module, ASCII range): space, tab,
newline, carriage return, vertical tab, form feed. -/
def pyIsSpace (c : Char) : Bool :=
  c = ' ' || c = '\t' || c = '\n' || c = '\r' || c = Char.ofNat 11 || c = Char.ofNat 12

/-- Model of Python's `\w` class over ASCII: letters, digits, underscore. -/
def isWordChar (c : Char) : Bool :=
  c.isAlphanum || c = '_'

/-- Model of Python's `str.lower` over ASCII. -/
def pyLower (c : Char) : Char :=
  if c.isUpper then Char.ofNat (c.toNat + 32) else c

/-- Characters kept by `re.sub(r'[^\w\s-]', '', text)` in `slugify`. -/
def keepChar (c : Char) : Bool :=
  isWordChar c || pyIsSpace c || c = '-'

/-- Characters matched by the class `[-\s]` in `slugify`'s second
substitution. -/
def isDashSpace (c : Char) : Bool :=
  c = '-' || pyIsSpace c

/-- Model of `re.sub(r'[-\s]+', '-', text)`: every maximal run of
hyphen/whitespace characters is replaced by a single hyphen.  The boolean
argument records whether the previous character belonged to such a run. -/
def collapseRuns : Bool → List Char → List Char
  | _, [] => []
  | prevRun, c :: cs =>
    if isDashSpace c then
      if prevRun then collapseRuns true cs else '-' :: collapseRuns true cs
    else
      c :: collapseRuns false cs

/-- Is the character a hyphen? (the strip set of `str.strip('-')`). -/
def isDashC (c : Char) : Bool := c = '-'

/-- Drop a trailing run of hyphens (the right half of Python's
`str.strip('-')`). -/
def dropTrailDash : List Char → List Char
  | [] => []
  | c :: cs =>
    match dropTrailDash cs with
    | [] => if c = '-' then [] else [c]
    | r => c :: r

/-- Model of Python's `str.strip('-')`. -/
def stripDash (l : List Char) : List Char :=
  dropTrailDash (l.dropWhile isDashC)

/-- `slugify` from `scripts/fetch_podcasts.py`:
`text.lower()`, then `re.sub(r'[^\w\s-]', '', text)`, then
`re.sub(r'[-\s]+', '-', text)`, then `text.strip('-')`. -/
def slugify (s : String) : String :=
  String.mk (stripDash (collapseRuns false ((s.data.map pyLower).filter keepChar)))

/-- Drop a trailing run of whitespace (right half of Python `str.strip()`). -/
def dropTrailSpace : List Char → List Char
  | [] => []
  | c :: cs =>
    match dropTrailSpace cs with
    | [] => if pyIsSpace c then [] else [c]
    | r => c :: r

/-- Model of Python's `str.strip()` (no arguments) over ASCII whitespace. -/
def pyStrip (l : List Char) : List Char :=
  dropTrailSpace (l.dropWhile pyIsSpace)

/-- String-level wrapper for `pyStrip`. -/
def pyStripS (s : String) : String :=
  String.mk (pyStrip s.data)

/-- State machine for `re.sub(r'<[^>]+>', '', s)`.  `none` means we are
outside any candidate tag; `some buf` means a `<` has been read and `buf`
holds the characters read since then, in reverse.  A `>` with a nonempty
buffer closes and deletes the tag; a `>` with an empty buffer means the
`<` did not start a match (the pattern needs at least one inner
character), so both characters are kept; at end of input an unclosed `<`
and its buffer are emitted verbatim. -/
def stripTagsAux : Option (List Char) → List Char → List Char
  | none, [] => []
  | none, c :: cs =>
    if c = '<' then stripTagsAux (some []) cs else c :: stripTagsAux none cs
  | some buf, [] => '<' :: buf.reverse
  | some buf, c :: cs =>
    if c = '>' then
      if buf.isEmpty then '<' :: '>' :: stripTagsAux none cs
      else stripTagsAux none cs
    else
      stripTagsAux (some (c :: buf)) cs

/-- Model of `re.sub(r'<[^>]+>', '', s)` used to clean HTML from the
description. -/
def stripTags (s : String) : String :=
  String.mk (stripTagsAux none s.data)

/-- Does `l` start with `needle`? (model of an anchored literal match). -/
def startsWithL : List Char → List Char → Bool
  | [], _ => true
  | _ :: _, [] => false
  | n :: ns, c :: cs => n = c && startsWithL ns cs

/-- Model of Python's `needle in haystack` substring test. -/
def containsL (needle : List Char) : List Char → Bool
  | [] => startsWithL needle []
  | c :: cs => startsWithL needle (c :: cs) || containsL needle cs

/-- String-level wrapper for `containsL`. -/
def containsS (haystack needle : String) : Bool :=
  containsL needle.data haystack.data

/-- A calendar date, the part of a parsed timestamp kept by
`dt.strftime('%Y-%m-%d')`. -/
structure DateYMD where
  y : Nat
  m : Nat
  d : Nat
deriving DecidableEq, Repr

/-- Numeric value of a decimal digit character. -/
def digitVal (c : Char) : Nat := c.toNat - '0'.toNat

/-- Case-insensitive literal match (Python's `_strptime` compiles its
regex with `re.IGNORECASE`); the pattern is given in lowercase.  Returns
the unconsumed input on success. -/
def matchCI : List Char → List Char → Option (List Char)
  | [], l => some l
  | _ :: _, [] => none
  | p :: ps, c :: cs => if pyLower c = p then matchCI ps cs else none

/-- First pattern of an alternation that matches, with the rest of the
input. -/
def matchOneOf : List (List Char) → List Char → Option (List Char)
  | [], _ => none
  | p :: ps, l =>
    match matchCI p l with
    | some r => some r
    | none => matchOneOf ps l

/-- Abbreviated weekday names recognised by `%a` (C locale). -/
def dayAbbrevs : List (List Char) :=
  ["mon", "tue", "wed", "thu", "fri", "sat", "sun"].map String.data

/-- Abbreviated month names recognised by `%b` (C locale), with their
month numbers. -/
def monthAbbrevs : List (List Char × Nat) :=
  [("jan".data, 1), ("feb".data, 2), ("mar".data, 3), ("apr".data, 4),
   ("may".data, 5), ("jun".data, 6), ("jul".data, 7), ("aug".data, 8),
   ("sep".data, 9), ("oct".data, 10), ("nov".data, 11), ("dec".data, 12)]

/-- First month abbreviation that matches, with its number. -/
def matchMonthAux : List (List Char × Nat) → List Char → Option (Nat × List Char)
  | [], _ => none
  | (p, v) :: ps, l =>
    match matchCI p l with
    | some r => some (v, r)
    | none => matchMonthAux ps l

/-- A required literal character in the format. -/
def expectChar (c : Char) : List Char → Option (List Char)
  | [] => none
  | x :: xs => if x = c then some xs else none

/-- A space in the `strptime` format matches one or more whitespace
characters (greedy). -/
def skipWs1 : List Char → Option (List Char)
  | [] => none
  | c :: cs => if pyIsSpace c then some (cs.dropWhile pyIsSpace) else none

/-- Two-digit day-of-month alternatives of the `%d` regex
(`3[01]|[12]\d|0[1-9]`). -/
def parseDay2Ok (d1 d2 : Char) : Bool :=
  (d1 = '3' && (d2 = '0' || d2 = '1')) || d1 = '1' || d1 = '2' ||
    (d1 = '0' && d2 != '0')

/-- Model of `%d` (after the preceding greedy whitespace, so the
space-padded alternative cannot arise): a valid two-digit day, else a
single nonzero digit. -/
def parseDay : List Char → Option (Nat × List Char)
  | d1 :: d2 :: rest =>
    if d1.isDigit && d2.isDigit && parseDay2Ok d1 d2 then
      some (digitVal d1 * 10 + digitVal d2, rest)
    else if d1.isDigit && d1 != '0' then some (digitVal d1, d2 :: rest)
    else none
  | [d1] => if d1.isDigit && d1 != '0' then some (digitVal d1, []) else none
  | [] => none

/-- Model of `%Y`: exactly four digits. -/
def parseYear : List Char → Option (Nat × List Char)
  | a :: b :: c :: d :: rest =>
    if a.isDigit && b.isDigit && c.isDigit && d.isDigit then
      some (digitVal a * 1000 + digitVal b * 100 + digitVal c * 10 + digitVal d,
        rest)
    else none
  | _ => none

/-- Model of `%H` (`2[0-3]|[0-1]\d|\d`): a valid two-digit hour, else a
single digit. -/
def parseHour : List Char → Option (Nat × List Char)
  | d1 :: d2 :: rest =>
    if d1.isDigit && d2.isDigit &&
        ((d1 = '2' && (d2 = '0' || d2 = '1' || d2 = '2' || d2 = '3')) ||
          d1 = '0' || d1 = '1') then
      some (digitVal d1 * 10 + digitVal d2, rest)
    else if d1.isDigit then some (digitVal d1, d2 :: rest)
    else none
  | [d1] => if d1.isDigit then some (digitVal d1, []) else none
  | [] => none

/-- Is the character one of `0`-`5`? -/
def isDigit05 (c : Char) : Bool :=
  c = '0' || c = '1' || c = '2' || c = '3' || c = '4' || c = '5'

/-- Model of `%M` (`[0-5]\d|\d`). -/
def parseMin : List Char → Option (Nat × List Char)
  | d1 :: d2 :: rest =>
    if isDigit05 d1 && d2.isDigit then
      some (digitVal d1 * 10 + digitVal d2, rest)
    else if d1.isDigit then some (digitVal d1, d2 :: rest)
    else none
  | [d1] => if d1.isDigit then some (digitVal d1, []) else none
  | [] => none

/-- Model of `%S` (`6[0-1]|[0-5]\d|\d`), allowing leap seconds at the
regex level (the `datetime` constructor rejects them later). -/
def parseSec : List Char → Option (Nat × List Char)
  | d1 :: d2 :: rest =>
    if ((d1 = '6' && (d2 = '0' || d2 = '1')) || isDigit05 d1) && d2.isDigit then
      some (digitVal d1 * 10 + digitVal d2, rest)
    else if d1.isDigit then some (digitVal d1, d2 :: rest)
    else none
  | [d1] => if d1.isDigit then some (digitVal d1, []) else none
  | [] => none

/-- All fields shared by the two accepted formats. -/
structure StampParts where
  y : Nat
  m : Nat
  d : Nat
  hh : Nat
  mm : Nat
  ss : Nat
deriving DecidableEq, Repr

/-- Parse the date half `%a, %d %b %Y ` of the common format, including
the whitespace after the year.  Returns day, month, year. -/
def parseDatePart (l : List Char) : Option (Nat × Nat × Nat × List Char) :=
  match matchOneOf dayAbbrevs l with
  | none => none
  | some r1 =>
    match expectChar ',' r1 with
    | none => none
    | some r2 =>
      match skipWs1 r2 with
      | none => none
      | some r3 =>
        match parseDay r3 with
        | none => none
        | some (dd, r4) =>
          match skipWs1 r4 with
          | none => none
          | some r5 =>
            match matchMonthAux monthAbbrevs r5 with
            | none => none
            | some (mo, r6) =>
              match skipWs1 r6 with
              | none => none
              | some r7 =>
                match parseYear r7 with
                | none => none
                | some (yy, r8) =>
                  match skipWs1 r8 with
                  | none => none
                  | some r9 => some (dd, mo, yy, r9)

/-- Parse the time half `%H:%M:%S ` of the common format, including the
whitespace before the timezone field.  Returns hour, minute, second. -/
def parseTimePart (l : List Char) : Option (Nat × Nat × Nat × List Char) :=
  match parseHour l with
  | none => none
  | some (hh, r10) =>
    match expectChar ':' r10 with
    | none => none
    | some r11 =>
      match parseMin r11 with
      | none => none
      | some (mi, r12) =>
        match expectChar ':' r12 with
        | none => none
        | some r13 =>
          match parseSec r13 with
          | none => none
          | some (ss, r14) =>
            match skipWs1 r14 with
            | none => none
            | some r15 => some (hh, mi, ss, r15)

/-- Parse the common part `%a, %d %b %Y %H:%M:%S ` of both formats,
including the whitespace before the timezone field. -/
def parseCommon (l : List Char) : Option (StampParts × List Char) :=
  match parseDatePart l with
  | none => none
  | some (dd, mo, yy, r9) =>
    match parseTimePart r9 with
    | none => none
    | some (hh, mi, ss, r15) => some (⟨yy, mo, dd, hh, mi, ss⟩, r15)

/-- Gregorian leap-year test, as in Python's `calendar`/`datetime`. -/
def isLeapYear (y : Nat) : Bool :=
  (y % 4 == 0 && y % 100 != 0) || y % 400 == 0

/-- Days in a month, as validated by the `datetime` constructor. -/
def daysInMonth (y m : Nat) : Nat :=
  if m = 2 then (if isLeapYear y then 29 else 28)
  else if m = 4 || m = 6 || m = 9 || m = 11 then 30
  else 31

/-- Field validation performed by the `datetime(...)` constructor; a
failure here raises `ValueError`, which the script's `except ValueError`
treats like any other parse failure. -/
def validStamp (p : StampParts) : Bool :=
  decide (1 ≤ p.y) && decide (p.y ≤ 9999) && decide (1 ≤ p.m) &&
    decide (p.m ≤ 12) && decide (1 ≤ p.d) &&
    decide (p.d ≤ daysInMonth p.y p.m) && decide (p.hh ≤ 23) &&
    decide (p.mm ≤ 59) && decide (p.ss ≤ 59)

/-- Timezone names accepted by `%Z`: Python's `_strptime` recognises
`utc`, `gmt` and the names in `time.tzname` (the same two under a UTC
environment), case-insensitively. -/
def tzNames : List (List Char) :=
  ["utc", "gmt"].map String.data

/-- Two required digits. -/
def twoDigits : List Char → Option (Nat × List Char)
  | a :: b :: rest =>
    if a.isDigit && b.isDigit then some (digitVal a * 10 + digitVal b, rest)
    else none
  | _ => none

/-- Consume an optional colon (`:?` in the `%z` regex). -/
def dropColon : List Char → List Char
  | ':' :: rest => rest
  | l => l

/-- Optional fractional part `(\.\d{1,6})?` of `%z`; on a malformed
fraction the group matches empty, leaving input that later fails the
full-match check. -/
def parseFrac : List Char → Option (List Char)
  | '.' :: rest =>
    let ds := rest.takeWhile Char.isDigit
    if ds.isEmpty || decide (6 < ds.length) then none
    else some (rest.drop ds.length)
  | l => some l

/-- Optional seconds group `(:?\d\d(\.\d{1,6})?)?` of `%z`; when the
group cannot match it matches empty. -/
def parseTzTail (l : List Char) : Option (Nat × List Char) :=
  match twoDigits (dropColon l) with
  | some (ss, r) =>
    match parseFrac r with
    | some r2 => some (ss, r2)
    | none => some (0, l)
  | none => some (0, l)

/-- Model of `%z` (`[+-]\d\d:?\d\d(:?\d\d(\.\d{1,6})?)?|Z`, the `Z`
case-sensitive); returns the magnitude of the offset in seconds. -/
def parseOffset : List Char → Option (Nat × List Char)
  | [] => none
  | c :: rest =>
    if c = 'Z' then some (0, rest)
    else if c = '+' || c = '-' then
      match twoDigits rest with
      | none => none
      | some (hh, r1) =>
        match twoDigits (dropColon r1) with
        | none => none
        | some (mm, r2) =>
          match parseTzTail r2 with
          | none => none
          | some (ss, r3) => some (hh * 3600 + mm * 60 + ss, r3)
    else none

/-- Model of `datetime.strptime(s, '%a, %d %b %Y %H:%M:%S %Z')` reduced
to the calendar date by `dt.strftime('%Y-%m-%d')`.  `none` models
`ValueError` (regex mismatch, unconverted trailing data, or constructor
validation). -/
def parseRfc2822Named (s : String) : Option DateYMD :=
  match parseCommon s.data with
  | none => none
  | some (p, r) =>
    match matchOneOf tzNames r with
    | none => none
    | some r2 =>
      if r2.isEmpty && validStamp p then some ⟨p.y, p.m, p.d⟩ else none

/-- Model of `datetime.strptime(s, '%a, %d %b %Y %H:%M:%S %z')` reduced
to the calendar date; the offset must keep `timezone(timedelta(...))` in
range (strictly less than 24 hours in magnitude), and `strftime` uses the
parsed fields without timezone conversion. -/
def parseRfc2822Numeric (s : String) : Option DateYMD :=
  match parseCommon s.data with
  | none => none
  | some (p, r) =>
    match parseOffset r with
    | none => none
    | some (off, r2) =>
      if r2.isEmpty && validStamp p && decide (off < 86400) then
        some ⟨p.y, p.m, p.d⟩
      else none

/-- Zero-padded two-digit rendering (`%m`, `%d` of `strftime`). -/
def pad2 (n : Nat) : String :=
  if n < 10 then "0" ++ toString n else toString n

/-- Zero-padded four-digit rendering (`%Y` of `strftime`). -/
def pad4 (n : Nat) : String :=
  if n < 10 then "000" ++ toString n
  else if n < 100 then "00" ++ toString n
  else if n < 1000 then "0" ++ toString n
  else toString n

/-- Model of `dt.strftime('%Y-%m-%d')`. -/
def formatYMD (d : DateYMD) : String :=
  pad4 d.y ++ "-" ++ pad2 d.m ++ "-" ++ pad2 d.d

/-- Decidable equality for `Except`, used to evaluate concrete runs of
the embedded functions. -/
instance exceptDecEq {ε α : Type} [DecidableEq ε] [DecidableEq α] :
    DecidableEq (Except ε α)
  | .error u, .error v =>
    if h : u = v then .isTrue (congrArg Except.error h)
    else .isFalse (fun hh => h (Except.error.inj hh))
  | .error _, .ok _ => .isFalse (fun hh => Except.noConfusion hh)
  | .ok _, .error _ => .isFalse (fun hh => Except.noConfusion hh)
  | .ok u, .ok v =>
    if h : u = v then .isTrue (congrArg Except.ok h)
    else .isFalse (fun hh => h (Except.ok.inj hh))

/-- One RSS `item` element as seen through `ElementTree`.  For each child
element, the outer `Option` is element presence (`item.find(...)`) and
the inner `Option` is the text node (`.text`, which is `None` for an
element without text).  `enclosureUrl`'s inner `Option` is the presence
of the `url` attribute; `itunesImageHref`'s is the presence of `href`
(XML attribute values are always strings). -/
structure Item where
  title : Option (Option String) := none
  pubDate : Option (Option String) := none
  description : Option (Option String) := none
  contentEncoded : Option (Option String) := none
  guid : Option (Option String) := none
  link : Option (Option String) := none
  enclosureUrl : Option (Option String) := none
  itunesImageHref : Option (Option String) := none
deriving DecidableEq, Repr

/-- The dictionary built by `extract_episode_info`.  `title` and `guid`
are `Option String` because the Python values can be `None` (an element
present with no text). -/
structure Episode where
  title : Option String
  date : String
  description : String
  guid : Option String
  spotify_url : String
  episode_id : Option String
  image_url : String
deriving DecidableEq, Repr

/-- Python truthiness of a value that is either `None` or a string. -/
def pyTruthy : Option String → Bool
  | none => false
  | some s => !(s.isEmpty)

/-- Model of `re.search(r'/episode/([a-zA-Z0-9]+)', s)`: the leftmost
occurrence of the literal `/episode/` followed by at least one
alphanumeric character; the capture is the maximal alphanumeric run. -/
def searchEpisodeAux : List Char → Option (List Char)
  | [] => none
  | c :: cs =>
    if startsWithL "/episode/".data (c :: cs) then
      let cap := ((c :: cs).drop 9).takeWhile Char.isAlphanum
      if cap.isEmpty then searchEpisodeAux cs else some cap
    else searchEpisodeAux cs

/-- String-level wrapper for `searchEpisodeAux`. -/
def searchEpisode (s : String) : Option String :=
  (searchEpisodeAux s.data).map String.mk

/-- The input after the first occurrence of `marker` (which must occur). -/
def afterFirst (marker : List Char) : List Char → Option (List Char)
  | [] => if marker.isEmpty then some [] else none
  | c :: cs =>
    if startsWithL marker (c :: cs) then some ((c :: cs).drop marker.length)
    else afterFirst marker cs

/-- The input up to (excluding) the next occurrence of `marker`. -/
def upToMarker (marker : List Char) : List Char → List Char
  | [] => []
  | c :: cs =>
    if startsWithL marker (c :: cs) then []
    else c :: upToMarker marker cs

/-- Model of `s.split(marker)[1]` for a marker known to occur in `s`:
the segment between the first occurrence of the marker and the next
occurrence (or the end of the string). -/
def splitSecond (s marker : String) : String :=
  String.mk (upToMarker marker.data (((afterFirst marker.data s.data).getD [])))

/-- The `guid` dictionary entry:
`guid.text if guid is not None else ""`. -/
def extractGuid (it : Item) : Option String :=
  match it.guid with
  | some t => t
  | none => some ""

/-- The `episode_id` recovery logic of `extract_episode_info`: first a
regex search over the enclosure's `url` attribute (`.get('url', '')`),
then — when that produced nothing truthy and the guid is truthy — either
the segment after `spotify:episode:` or a regex search over the guid. -/
def extractEpisodeId (it : Item) : Option String :=
  let fromEnc : Option String :=
    match it.enclosureUrl with
    | some u => searchEpisode (u.getD "")
    | none => none
  let g := extractGuid it
  if !(pyTruthy fromEnc) && pyTruthy g then
    let gs := g.getD ""
    if containsS gs "spotify:episode:" then
      some (splitSecond gs "spotify:episode:")
    else searchEpisode gs
  else fromEnc

/-- The `date` dictionary entry.  A `pubDate` element that is present
but empty has `.text = None`, and `datetime.strptime(None, ...)` raises
`TypeError`, which the surrounding `except ValueError` does not catch:
that is the `Except.error` case.  Otherwise the two formats are tried in
order and total failure falls back to the current date (`today`). -/
def extractDate (today : String) (it : Item) : Except Unit String :=
  match it.pubDate with
  | none => Except.ok today
  | some none => Except.error ()
  | some (some s) =>
    Except.ok (match parseRfc2822Named s with
      | some d => formatYMD d
      | none =>
        match parseRfc2822Numeric s with
        | some d => formatYMD d
        | none => today)

/-- The raw `description` dictionary entry before HTML cleaning:
`description.text or ""`, else `content:encoded`, else `""`. -/
def extractRawDescription (it : Item) : String :=
  match it.description with
  | some t => t.getD ""
  | none =>
    match it.contentEncoded with
    | some t => t.getD ""
    | none => ""

/-- Model of `extract_episode_info` from `scripts/fetch_podcasts.py`.
`today` stands for `datetime.now().strftime('%Y-%m-%d')`.  The only
exception that can escape is the `TypeError` from an empty `pubDate`
element (see `extractDate`). -/
def extract_episode_info (today : String) (it : Item) : Except Unit Episode :=
  match extractDate today it with
  | .error e => .error e
  | .ok date => .ok
    { title :=
        match it.title with
        | some t => t
        | none => some "Untitled Episode"
      date := date
      description := pyStripS (stripTags (extractRawDescription it))
      guid := extractGuid it
      spotify_url :=
        match it.link with
        | some (some s) => if s.isEmpty then "" else s
        | _ => ""
      episode_id := extractEpisodeId it
      image_url :=
        match it.itunesImageHref with
        | some h => h.getD ""
        | none => "" }

/-- Model of Python's ASCII uppercasing of a single character. -/
def pyUpper (c : Char) : Char :=
  if c.isLower then Char.ofNat (c.toNat - 32) else c

/-- Model of `str.title()` over ASCII: the first letter of each run of
letters is uppercased, the following letters lowercased; other
characters are unchanged.  The boolean records whether the previous
character was a letter. -/
def pyTitleAux : Bool → List Char → List Char
  | _, [] => []
  | prevAlpha, c :: cs =>
    if c.isAlpha then
      (if prevAlpha then pyLower c else pyUpper c) :: pyTitleAux true cs
    else c :: pyTitleAux false cs

/-- String-level wrapper for `pyTitleAux`. -/
def pyTitle (s : String) : String :=
  String.mk (pyTitleAux false s.data)

/-- The fixed keyword vocabulary of `create_episode_post`. -/
def topic_keywords : List String :=
  ["data science", "machine learning", "artificial intelligence",
   "health metrics", "epidemiology", "public health",
   "infectious disease", "statistics", "research"]

/-- The key-topics classification of `create_episode_post`: keywords
found in the lowercased description, title-cased, with the fixed default
pair when none match. -/
def keyTopicsOf (desc : String) : List String :=
  let lower := String.mk (desc.data.map pyLower)
  let found := (topic_keywords.filter (fun k => containsS lower k)).map pyTitle
  if found.isEmpty then ["Health Metrics", "Data Science"] else found

/-- The summary computation of `create_episode_post`:
`episode['description'][:200].strip()`, with `"..."` appended when the
description is longer than 200 characters. -/
def summaryOf (desc : String) : String :=
  let s := pyStripS (String.mk (desc.data.take 200))
  if 200 < desc.length then s ++ "..." else s

/-- `SPOTIFY_SHOW_ID` from the configuration block. -/
def SPOTIFY_SHOW_ID : String := "43CSCODQFQkZ05u3Up5OD6"

/-- The embed URL of `create_episode_post`: per-episode when
`episode['episode_id']` is truthy, else the show-level fallback. -/
def embedUrlOf (e : Episode) : String :=
  if pyTruthy e.episode_id then
    "https://open.spotify.com/embed/episode/" ++ e.episode_id.getD "" ++
      "?utm_source=generator"
  else
    "https://open.spotify.com/embed/show/" ++ SPOTIFY_SHOW_ID ++
      "/video?utm_source=generator"

/-- `base_slug = slugify(episode['title'])[:50]`. -/
def baseSlugOf (t : String) : String :=
  String.mk ((slugify t).data.take 50)

/-- The topic bullet list appended to the content
(`"- {topic}\n"` per topic). -/
def bulletList : List String → String
  | [] => ""
  | t :: ts => "- " ++ t ++ "\n" ++ bulletList ts

/-- The part of the `index.qmd` template before the image line. -/
def qmdHead (e : Episode) (t : String) : String :=
  "---\ntitle: \"" ++ t ++ "\"\ndate: '" ++ e.date ++ "'\n"

/-- The fixed image reference line of the frontmatter. -/
def imageLine : String := "image: featured.png"

/-- The part of the `index.qmd` template after the image line, including
the trailing topic bullets and final blank lines. -/
def qmdAfterImage (e : Episode) (t : String) : String :=
  "\nslug: podcast-" ++ baseSlugOf t ++
    "\ntoc: true\ncategories:\n  - health metrics\n  - data science\nsummary: \"" ++
    summaryOf e.description ++
    "\"\nexecute: \n  eval: false\n---\n\n\n<iframe data-testid=\"embed-iframe\" style=\"border-radius:12px\" src=\"" ++
    embedUrlOf e ++
    "\" width=\"624\" height=\"351\" frameBorder=\"0\" allowfullscreen=\"\" allow=\"autoplay; clipboard-write; encrypted-media; fullscreen; picture-in-picture\" loading=\"lazy\"></iframe>\n\n\n## Episode Overview\n\n" ++
    e.description ++ "\n\n## Key Topics Discussed\n\n" ++
    bulletList ((keyTopicsOf e.description).take 5) ++ "\n\n"

/-- The full `index.qmd` content written by `create_episode_post` for an
episode whose title is the string `t`. -/
def qmdContent (e : Episode) (t : String) : String :=
  qmdHead e t ++ imageLine ++ qmdAfterImage e t

/-- The post filesystem: a map from (directory, file name) to file
content. -/
def FS : Type := String × String → Option String

/-- Overwrite one file. -/
def fsWrite (fs : FS) (k : String × String) (v : String) : FS :=
  fun q => if q = k then some v else fs q

/-- Model of `create_episode_post`.  `dl` abstracts whether the image
HTTP request succeeds and `img` stands for the downloaded bytes; a
download failure is non-fatal.  A `None` title makes `slugify` call
`None.lower()`, an `AttributeError`, modelled by `Except.error`; that is
the only input-determined exception.  Returns the episode directory name
(`str(episode_dir)` relative to the posts root) and the updated
filesystem. -/
def create_episode_post (fs : FS) (e : Episode) (dl : Bool) (img : String) :
    Except Unit (String × FS) :=
  match e.title with
  | none => Except.error ()
  | some t =>
    let dir := baseSlugOf t
    let fs1 :=
      if !(e.image_url.isEmpty) && dl then fsWrite fs (dir, "featured.png") img
      else fs
    let fs2 := fsWrite fs1 (dir, "index.qmd") (qmdContent e t)
    Except.ok (dir, fs2)

/-- One orchestrator event per feed entry reached by the `main` loop:
either the guid was already processed and the entry skipped, or
`create_episode_post` was invoked and succeeded or failed. -/
inductive Event where
  | skipped : Option String → Event
  | rendered : Option String → Event
  | renderFailed : Option String → Event
deriving DecidableEq, Repr

/-- The guid an event concerns. -/
def Event.guidOf : Event → Option String
  | .skipped g => g
  | .rendered g => g
  | .renderFailed g => g

/-- The orchestrator state of `main`: the in-memory processed set, the
`new_episodes` list, and the chronological event log. -/
structure RunResult where
  processed : List (Option String)
  newEps : List (Option String)
  events : List Event
deriving DecidableEq, Repr

/-- One iteration of the `main` loop.  `renderOk` abstracts whether
`create_episode_post` completes without an exception for the episode
(filesystem and network outcomes included); on success the guid is
appended to `new_episodes` and added to the processed set, on failure
the exception is caught, logged, and the loop continues.  An exception
escaping `extract_episode_info` is not caught anywhere in `main`, so it
aborts the run (`Except.error` carries the state reached so far). -/
def stepItem (renderOk : Episode → Bool) (today : String) (acc : RunResult)
    (it : Item) : Except RunResult RunResult :=
  match extract_episode_info today it with
  | .error _ => .error acc
  | .ok ep =>
    if ep.guid ∈ acc.processed then
      .ok { acc with events := acc.events ++ [.skipped ep.guid] }
    else if renderOk ep then
      .ok { processed := acc.processed ++ [ep.guid],
            newEps := acc.newEps ++ [ep.guid],
            events := acc.events ++ [.rendered ep.guid] }
    else
      .ok { acc with events := acc.events ++ [.renderFailed ep.guid] }

/-- The `main` loop over the feed entries, in feed order. -/
def runItems (renderOk : Episode → Bool) (today : String) :
    List Item → RunResult → Except RunResult RunResult
  | [], acc => .ok acc
  | it :: rest, acc =>
    match stepItem renderOk today acc it with
    | .error e => .error e
    | .ok acc2 => runItems renderOk today rest acc2

/-- The state reached by a run, whether it completed or aborted. -/
def finalOf : Except RunResult RunResult → RunResult
  | .ok r => r
  | .error r => r

/-- Did the run complete without an uncaught exception? -/
def runOk : Except RunResult RunResult → Bool
  | .ok _ => true
  | .error _ => false

/-- The state at the start of a run, with the processed-guid set loaded
from the state file. -/
def initialRun (processed0 : List (Option String)) : RunResult :=
  ⟨processed0, [], []⟩

/-- An item whose child elements are all present but empty (as
`ElementTree` parses `<item><title/><pubDate/>...</item>`). -/
def emptyChildrenItem : Item :=
  { title := some none, pubDate := some none, description := some none,
    contentEncoded := some none, guid := some none, link := some none,
    enclosureUrl := some none, itunesImageHref := some none }

/-- An item whose title element is present but empty. -/
def emptyTitleItem : Item := { title := some none }

/-- The episode extracted from `emptyTitleItem`. -/
def epC5 : Episode :=
  { title := none, date := "2026-01-01", description := "", guid := some "",
    spotify_url := "", episode_id := none, image_url := "" }

/-- An item whose enclosure URL and guid both encode (different)
episode ids. -/
def itC2 : Item :=
  { guid := some (some "spotify:episode:BBB2"),
    enclosureUrl := some (some "https://host/audio/episode/AAA1.mp3") }

/-- The episode extracted from `itC2`. -/
def epC2 : Episode :=
  { title := some "Untitled Episode", date := "2026-01-01", description := "",
    guid := some "spotify:episode:BBB2", spotify_url := "",
    episode_id := some "AAA1", image_url := "" }

/-- An item with the mock feed's publication date. -/
def itC3 : Item := { pubDate := some (some "Wed, 15 Jan 2026 10:00:00 GMT") }

/-- The episode extracted from `itC3` when the current date is
`2026-02-02`. -/
def epC3 : Episode :=
  { title := some "Untitled Episode", date := "2026-01-15", description := "",
    guid := some "", spotify_url := "", episode_id := none, image_url := "" }

/-- A 250-character stripped description whose 200-character head ends
in a space. -/
def desc250 : String :=
  String.mk (List.replicate 199 'a' ++ ' ' :: List.replicate 50 'b')

/-- The episode used in the C7 witness. -/
def epC7 : Episode :=
  { title := some "T", date := "2026-01-01", description := desc250,
    guid := some "g", spotify_url := "", episode_id := none, image_url := "" }

/-- The empty post filesystem. -/
def fsEmpty : FS := fun _ => none

/-- The episode used in the C9 witness: no image URL. -/
def epC9 : Episode :=
  { title := some "Hello World", date := "2026-01-01", description := "",
    guid := some "g9", spotify_url := "", episode_id := none, image_url := "" }

/-- First C10 witness episode: a 60-character title. -/
def epC10a : Episode :=
  { title := some "aaaaaaaaaaaaaaaaaaaaaaaaaaaaaaaaaaaaaaaaaaaaaaaaaaaaaaaaaaaa",
    date := "2026-01-01", description := "", guid := some "guid-a",
    spotify_url := "", episode_id := none, image_url := "" }

/-- Second C10 witness episode: a different title sharing the same
50-character slug prefix, and a different guid. -/
def epC10b : Episode :=
  { title := some "aaaaaaaaaaaaaaaaaaaaaaaaaaaaaaaaaaaaaaaaaaaaaaaaaaaaa",
    date := "2026-01-02", description := "", guid := some "guid-b",
    spotify_url := "", episode_id := none, image_url := "" }

/-- Does `extract_episode_info` return without raising on the item? -/
def extractOkB (today : String) (it : Item) : Bool :=
  match extract_episode_info today it with
  | .ok _ => true
  | .error _ => false

/-- Chronological ordering property of the event log used for C1: once
a guid has been recorded by a successful render, every later event on
that guid is a skip. -/
def renderedRel (a b : Event) : Prop :=
  ∀ g, a = Event.rendered g → Event.guidOf b = g → b = Event.skipped g

/-- Characters allowed in a slug by the amended C6: lowercase letters,
digits, hyphens, and the underscore that `\w` keeps. -/
def goodChar (c : Char) : Bool :=
  c.isLower || c.isDigit || c = '-' || c = '_'

/-- No two adjacent hyphens anywhere in the list. -/
def noAdjDash : List Char → Bool
  | [] => true
  | [_] => true
  | a :: b :: rest => !(isDashC a && isDashC b) && noAdjDash (b :: rest)

/-- First orchestrator witness item. -/
def itR1 : Item := { guid := some (some "g1") }

/-- Second orchestrator witness item, with a distinct guid. -/
def itR2 : Item := { guid := some (some "g2") }

/-- Inversion of a successful extraction: each field of the returned
episode in terms of the item. -/
theorem extract_ok_fields (today : String) (it : Item) (ep : Episode)
    (h : extract_episode_info today it = .ok ep) :
    extractDate today it = .ok ep.date ∧
    ep.title = (match it.title with
      | some t => t
      | none => some "Untitled Episode") ∧
    ep.description = pyStripS (stripTags (extractRawDescription it)) ∧
    ep.guid = extractGuid it ∧
    ep.episode_id = extractEpisodeId it ∧
    ep.image_url = (match it.itunesImageHref with
      | some a => a.getD ""
      | none => "") := by
  unfold extract_episode_info at h
  cases hd : extractDate today it with
  | error e => rw [hd] at h; exact absurd h (by simp)
  | ok date =>
    rw [hd] at h
    rw [Except.ok.injEq] at h
    subst h
    exact ⟨rfl, rfl, rfl, rfl, rfl, rfl⟩

/-- A successful regex search for `/episode/([a-zA-Z0-9]+)` always
captures at least one character. -/
theorem searchEpisodeAux_ne_nil :
    ∀ l cap, searchEpisodeAux l = some cap → cap ≠ [] := by
  intro l
  induction l with
  | nil => intro cap h; simp [searchEpisodeAux] at h
  | cons c cs ih =>
    intro cap h
    unfold searchEpisodeAux at h
    by_cases h1 : startsWithL "/episode/".data (c :: cs) = true
    · rw [if_pos h1] at h
      by_cases h2 : (((c :: cs).drop 9).takeWhile Char.isAlphanum).isEmpty = true
      · rw [if_pos h2] at h; exact ih cap h
      · rw [if_neg h2] at h
        cases h
        simpa [List.isEmpty_iff] using h2
    · rw [if_neg h1] at h; exact ih cap h

/-- Python truthiness of an enclosure search result coincides with the
search having found a match. -/
theorem pyTruthy_searchEpisode (s : String) :
    pyTruthy (searchEpisode s) = (searchEpisode s).isSome := by
  unfold searchEpisode
  cases hs : searchEpisodeAux s.data with
  | none => rfl
  | some cap =>
    have hne := searchEpisodeAux_ne_nil s.data cap hs
    have hne2 : String.mk cap ≠ "" := by
      intro hc
      exact hne (by simpa using congrArg String.data hc)
    have he : (String.mk cap).isEmpty = false := by
      rw [Bool.eq_false_iff]
      intro ht
      exact hne2 ((String.isEmpty_iff (String.mk cap)).mp ht)
    simp [pyTruthy, he]

/-- CLAIM C2: episode-id recovery follows the fixed priority order.  If
the enclosure URL contains a `/episode/<alphanumeric>` segment the
episode id is that segment (even when the guid carries a
`spotify:episode:` marker); otherwise, for a non-empty guid, the segment
after the first `spotify:episode:` marker wins, else a
`/episode/<alphanumeric>` search over the guid; in all remaining cases
the id is `none`. -/
theorem claim_c2_episode_id_priority (today : String) (it : Item)
    (ep : Episode) (h : extract_episode_info today it = .ok ep) :
    ep.episode_id =
      match (match it.enclosureUrl with
             | some u => searchEpisode (u.getD "")
             | none => none) with
      | some x => some x
      | none =>
        match ep.guid with
        | some g =>
          if g.isEmpty then none
          else if containsS g "spotify:episode:" then
            some (splitSecond g "spotify:episode:")
          else searchEpisode g
        | none => none := by
  obtain ⟨-, -, -, hguid, hid, -⟩ := extract_ok_fields today it ep h
  rw [hid, hguid]
  cases henc : it.enclosureUrl with
  | some u =>
    cases hse : searchEpisode (u.getD "") with
    | some x =>
      have ht : pyTruthy (some x) = true := by
        have h2 := pyTruthy_searchEpisode (u.getD "")
        rw [hse] at h2; rw [h2]; rfl
      simp [extractEpisodeId, henc, hse, ht]
    | none =>
      cases hg : extractGuid it with
      | none => simp [extractEpisodeId, henc, hse, hg, pyTruthy]
      | some g =>
        by_cases hge : g.isEmpty = true
        · simp [extractEpisodeId, henc, hse, hg, pyTruthy, hge]
        · simp [extractEpisodeId, henc, hse, hg, pyTruthy, hge]
  | none =>
    cases hg : extractGuid it with
    | none => simp [extractEpisodeId, henc, hg, pyTruthy]
    | some g =>
      by_cases hge : g.isEmpty = true
      · simp [extractEpisodeId, henc, hg, pyTruthy, hge]
      · simp [extractEpisodeId, henc, hg, pyTruthy, hge]

/-- An absent `pubDate` element yields the current date. -/
theorem extractDate_absent (today : String) (it : Item)
    (hp : it.pubDate = none) : extractDate today it = Except.ok today := by
  unfold extractDate; rw [hp]

/-- A present `pubDate` with text `s` yields the ordered two-format
parse with current-date fallback. -/
theorem extractDate_text (today : String) (it : Item) (s : String)
    (hp : it.pubDate = some (some s)) :
    extractDate today it =
      Except.ok (match parseRfc2822Named s with
        | some d => formatYMD d
        | none =>
          match parseRfc2822Numeric s with
          | some d => formatYMD d
          | none => today) := by
  unfold extractDate; rw [hp]

/-- CLAIM C3: the publication date falls back to the current date when
the field is absent or unparseable under both accepted formats, and the
first format that succeeds provides the calendar date. -/
theorem claim_c3_date_fallback (today : String) (it : Item) (ep : Episode)
    (h : extract_episode_info today it = .ok ep) :
    (it.pubDate = none → ep.date = today) ∧
    (∀ s, it.pubDate = some (some s) →
      (parseRfc2822Named s = none → parseRfc2822Numeric s = none →
        ep.date = today) ∧
      (∀ d, parseRfc2822Named s = some d → ep.date = formatYMD d) ∧
      (∀ d, parseRfc2822Named s = none → parseRfc2822Numeric s = some d →
        ep.date = formatYMD d)) := by
  obtain ⟨hdate, -, -, -, -, -⟩ := extract_ok_fields today it ep h
  constructor
  · intro hp
    rw [extractDate_absent today it hp] at hdate
    exact (Except.ok.inj hdate).symm
  · intro s hp
    rw [extractDate_text today it s hp] at hdate
    refine ⟨?_, ?_, ?_⟩
    · intro h1 h2; rw [h1, h2] at hdate
      exact (Except.ok.inj hdate).symm
    · intro d h1; rw [h1] at hdate
      exact (Except.ok.inj hdate).symm
    · intro d h1 h2; rw [h1, h2] at hdate
      exact (Except.ok.inj hdate).symm

/-- CLAIM C4 (failing input): extraction is not total on structurally
valid entries.  On an item whose `pubDate` element is present but empty,
`pub_date.text` is `None` and `datetime.strptime(None, ...)` raises
`TypeError`, which the surrounding `except ValueError` does not catch:
`extract_episode_info` raises instead of returning a record. -/
theorem claim_c4_empty_pubdate_raises :
    extract_episode_info "2026-01-01" emptyChildrenItem = .error () := by
  rfl

/-- CLAIM C5 (counterexample): an entry whose title element is present
but empty does not yield the placeholder; the extracted title is the
element's `None` text. -/
theorem claim_c5_counterexample :
    Except.map Episode.title (extract_episode_info "2026-01-01" emptyTitleItem)
        = .ok none ∧
      (none : Option String) ≠ some "Untitled Episode" := by
  constructor
  · rfl
  · simp

/-- CLAIM C5 (amended): the extracted title equals the title element's
text verbatim whenever the element is present — even when that text is
absent (`None`) — and equals the placeholder `"Untitled Episode"` only
when the element itself is absent. -/
theorem claim_c5_title (today : String) (it : Item) (ep : Episode)
    (h : extract_episode_info today it = .ok ep) :
    ep.title = (match it.title with
      | some t => t
      | none => some "Untitled Episode") :=
  (extract_ok_fields today it ep h).2.1

/-- Witness for the amended C5 at a concrete item with an empty title
element. -/
theorem claim_c5_title_witness : epC5.title = none :=
  claim_c5_title "2026-01-01" emptyTitleItem epC5 (by decide)

/-- Witness for C2 at a concrete item whose guid carries a different id
via the URI marker: the enclosure segment wins. -/
theorem claim_c2_witness :
    epC2.episode_id = some "AAA1" ∧ epC2.guid = some "spotify:episode:BBB2" :=
  ⟨claim_c2_episode_id_priority "2026-01-01" itC2 epC2 (by decide), rfl⟩

/-- Witness for C3 at a concrete item: the named-timezone format parses
and its calendar date is kept (not the current date). -/
theorem claim_c3_witness : epC3.date = formatYMD ⟨2026, 1, 15⟩ :=
  ((claim_c3_date_fallback "2026-02-02" itC3 epC3 (by decide)).2
    "Wed, 15 Jan 2026 10:00:00 GMT" rfl).2.1 ⟨2026, 1, 15⟩ (by decide)

/-- CLAIM C7 (amended): for an episode whose (already stripped)
description has 250 characters, the summary is the 200-character head
with trailing whitespace stripped, followed by the ellipsis; a
100-character description is returned whole, with no ellipsis. -/
theorem claim_c7_summary (e : Episode)
    (hclean : pyStripS e.description = e.description) :
    (e.description.length = 250 →
      summaryOf e.description =
        pyStripS (String.mk (e.description.data.take 200)) ++ "...") ∧
    (e.description.length = 100 → summaryOf e.description = e.description) := by
  constructor
  · intro h250
    simp [summaryOf, h250]
  · intro h100
    have hlen : e.description.data.length = 100 := h100
    have ht : e.description.data.take 200 = e.description.data :=
      List.take_of_length_le (by omega)
    have hs : summaryOf e.description =
        pyStripS (String.mk (e.description.data.take 200)) := by
      simp [summaryOf, h100]
    rw [hs, ht]
    exact hclean

/-- CLAIM C7 (counterexample): for this 250-character cleaned
description the rendered summary is not the first 200 characters plus
an ellipsis — `str.strip()` removes the trailing space of the head
first. -/
theorem claim_c7_counterexample :
    desc250.length = 250 ∧ pyStripS desc250 = desc250 ∧
      summaryOf desc250 ≠ String.mk (desc250.data.take 200) ++ "..." := by
  refine ⟨by decide, by decide, by decide⟩

/-- Witness for the amended C7 at the concrete 250-character
description. -/
theorem claim_c7_witness :
    summaryOf desc250 = pyStripS (String.mk (desc250.data.take 200)) ++ "..." :=
  (claim_c7_summary epC7 (by decide)).1 (by decide)

/-- A list starts with itself. -/
theorem startsWithL_self_append (n suf : List Char) :
    startsWithL n (n ++ suf) = true := by
  induction n with
  | nil => rfl
  | cons c cs ih => simp [startsWithL, ih]

/-- A needle that the haystack starts with is contained. -/
theorem containsL_of_startsWith (needle hay : List Char)
    (h : startsWithL needle hay = true) : containsL needle hay = true := by
  cases hay with
  | nil => simpa [containsL] using h
  | cons c cs => simp [containsL, h]

/-- A needle occurring literally in the haystack is found by
`containsL`. -/
theorem containsL_append_exact (pre needle suf : List Char) :
    containsL needle (pre ++ (needle ++ suf)) = true := by
  induction pre with
  | nil => exact containsL_of_startsWith _ _ (startsWithL_self_append needle suf)
  | cons c cs ih => simp [containsL, ih]

/-- String-level form: a middle piece of a concatenation is contained. -/
theorem containsS_middle (pre mid suf : String) :
    containsS (pre ++ (mid ++ suf)) mid = true := by
  unfold containsS
  rw [String.data_append, String.data_append]
  exact containsL_append_exact pre.data mid.data suf.data

/-- Unfolding of a successful `create_episode_post`: the directory is
the truncated title slug, the image is written only when the URL is
truthy and the download succeeds, and `index.qmd` is written last. -/
theorem create_episode_post_eq (fs : FS) (e : Episode) (t : String)
    (dl : Bool) (img : String) (ht : e.title = some t) :
    create_episode_post fs e dl img =
      .ok (baseSlugOf t,
        fsWrite
          (if !(e.image_url.isEmpty) && dl then
            fsWrite fs (baseSlugOf t, "featured.png") img
          else fs)
          (baseSlugOf t, "index.qmd") (qmdContent e t)) := by
  unfold create_episode_post
  rw [ht]

/-- CLAIM C9: the rendered content always carries the
`image: featured.png` frontmatter line, even when the episode has no
image URL or the download fails — in which case no `featured.png` is
written to the post directory. -/
theorem claim_c9_image_line (fs : FS) (e : Episode) (t : String)
    (dl : Bool) (img : String) (ht : e.title = some t) :
    ∃ fs2, create_episode_post fs e dl img = .ok (baseSlugOf t, fs2) ∧
      fs2 (baseSlugOf t, "index.qmd") = some (qmdContent e t) ∧
      containsS (qmdContent e t) "image: featured.png" = true ∧
      ((e.image_url.isEmpty || !dl) = true →
        fs2 (baseSlugOf t, "featured.png") = fs (baseSlugOf t, "featured.png")) := by
  refine ⟨_, create_episode_post_eq fs e t dl img ht, ?_, ?_, ?_⟩
  · simp [fsWrite]
  · have hq : qmdContent e t = qmdHead e t ++ (imageLine ++ qmdAfterImage e t) := by
      rw [qmdContent, String.append_assoc]
    rw [hq]
    exact containsS_middle _ _ _
  · intro hcond
    have hw : (!(e.image_url.isEmpty) && dl) = false := by
      cases hie : e.image_url.isEmpty <;> cases dl <;> simp_all
    rw [hw]
    simp [fsWrite]

/-- Witness for C9 at a concrete episode with no image URL and a failed
download. -/
theorem claim_c9_witness :
    ∃ fs2, create_episode_post fsEmpty epC9 false "" =
        .ok (baseSlugOf "Hello World", fs2) ∧
      fs2 (baseSlugOf "Hello World", "index.qmd") =
        some (qmdContent epC9 "Hello World") ∧
      containsS (qmdContent epC9 "Hello World") "image: featured.png" = true ∧
      ((epC9.image_url.isEmpty || !false) = true →
        fs2 (baseSlugOf "Hello World", "featured.png") =
          fsEmpty (baseSlugOf "Hello World", "featured.png")) :=
  claim_c9_image_line fsEmpty epC9 "Hello World" false "" rfl

/-- CLAIM C10: the post directory is a function of the title alone —
the slugified title truncated to 50 characters — so two episodes with
distinct guids whose titles share that slug land in the same directory,
and the second render overwrites the first `index.qmd`. -/
theorem claim_c10_slug_collision (fs : FS) (e1 e2 : Episode) (t1 t2 : String)
    (dl1 dl2 : Bool) (img1 img2 : String)
    (h1 : e1.title = some t1) (h2 : e2.title = some t2)
    (_hguid : e1.guid ≠ e2.guid)
    (hslug : baseSlugOf t1 = baseSlugOf t2) :
    ∃ fs1 fs2,
      create_episode_post fs e1 dl1 img1 = .ok (baseSlugOf t1, fs1) ∧
      create_episode_post fs1 e2 dl2 img2 = .ok (baseSlugOf t1, fs2) ∧
      fs2 (baseSlugOf t1, "index.qmd") = some (qmdContent e2 t2) := by
  have hc1 := create_episode_post_eq fs e1 t1 dl1 img1 h1
  have hc2 := create_episode_post_eq
    (fsWrite
      (if !(e1.image_url.isEmpty) && dl1 then
        fsWrite fs (baseSlugOf t1, "featured.png") img1
      else fs)
      (baseSlugOf t1, "index.qmd") (qmdContent e1 t1))
    e2 t2 dl2 img2 h2
  rw [← hslug] at hc2
  exact ⟨_, _, hc1, hc2, by simp [fsWrite]⟩

/-- Witness for C10 at two concrete episodes with distinct guids and
colliding slugs. -/
theorem claim_c10_witness :
    ∃ fs1 fs2,
      create_episode_post fsEmpty epC10a true "" =
        .ok (baseSlugOf "aaaaaaaaaaaaaaaaaaaaaaaaaaaaaaaaaaaaaaaaaaaaaaaaaaaaaaaaaaaa", fs1) ∧
      create_episode_post fs1 epC10b true "" =
        .ok (baseSlugOf "aaaaaaaaaaaaaaaaaaaaaaaaaaaaaaaaaaaaaaaaaaaaaaaaaaaaaaaaaaaa", fs2) ∧
      fs2 (baseSlugOf "aaaaaaaaaaaaaaaaaaaaaaaaaaaaaaaaaaaaaaaaaaaaaaaaaaaaaaaaaaaa", "index.qmd") =
        some (qmdContent epC10b "aaaaaaaaaaaaaaaaaaaaaaaaaaaaaaaaaaaaaaaaaaaaaaaaaaaaa") :=
  claim_c10_slug_collision fsEmpty epC10a epC10b _ _ true true "" ""
    rfl rfl (by decide) (by decide)

/-- Step characterisation: extraction failure aborts the loop. -/
theorem stepItem_error (rOk : Episode → Bool) (today : String)
    (acc : RunResult) (it : Item) (e : Unit)
    (hx : extract_episode_info today it = .error e) :
    stepItem rOk today acc it = .error acc := by
  simp [stepItem, hx]

/-- Step characterisation: an already-processed guid is skipped. -/
theorem stepItem_skip (rOk : Episode → Bool) (today : String)
    (acc : RunResult) (it : Item) (ep : Episode)
    (hx : extract_episode_info today it = .ok ep)
    (hmem : ep.guid ∈ acc.processed) :
    stepItem rOk today acc it =
      .ok { acc with events := acc.events ++ [Event.skipped ep.guid] } := by
  simp [stepItem, hx, hmem]

/-- Step characterisation: a successful render records the guid. -/
theorem stepItem_render (rOk : Episode → Bool) (today : String)
    (acc : RunResult) (it : Item) (ep : Episode)
    (hx : extract_episode_info today it = .ok ep)
    (hmem : ep.guid ∉ acc.processed) (hr : rOk ep = true) :
    stepItem rOk today acc it =
      .ok ⟨acc.processed ++ [ep.guid], acc.newEps ++ [ep.guid],
        acc.events ++ [Event.rendered ep.guid]⟩ := by
  simp [stepItem, hx, hmem, hr]

/-- Step characterisation: a failed render leaves the state unrecorded. -/
theorem stepItem_renderFailed (rOk : Episode → Bool) (today : String)
    (acc : RunResult) (it : Item) (ep : Episode)
    (hx : extract_episode_info today it = .ok ep)
    (hmem : ep.guid ∉ acc.processed) (hr : rOk ep = false) :
    stepItem rOk today acc it =
      .ok { acc with events := acc.events ++ [Event.renderFailed ep.guid] } := by
  simp [stepItem, hx, hmem, hr]

/-- Unfolding of the loop over a cons cell through a successful step. -/
theorem runItems_cons_ok (rOk : Episode → Bool) (today : String)
    (it : Item) (rest : List Item) (acc acc2 : RunResult)
    (hs : stepItem rOk today acc it = .ok acc2) :
    runItems rOk today (it :: rest) acc = runItems rOk today rest acc2 := by
  simp [runItems, hs]

/-- Unfolding of the loop over a cons cell through an aborting step. -/
theorem runItems_cons_error (rOk : Episode → Bool) (today : String)
    (it : Item) (rest : List Item) (acc acc2 : RunResult)
    (hs : stepItem rOk today acc it = .error acc2) :
    runItems rOk today (it :: rest) acc = .error acc2 := by
  simp [runItems, hs]

/-- Loop invariant for C1: once a guid is in the processed set, it stays
there, it is never appended to `new_episodes`, and every later event on
it is a skip. -/
theorem runItems_skip_inv (rOk : Episode → Bool) (today : String)
    (G : Option String) :
    ∀ (items : List Item) (acc : RunResult), G ∈ acc.processed →
      G ∈ (finalOf (runItems rOk today items acc)).processed ∧
      (∀ g, g ∈ (finalOf (runItems rOk today items acc)).newEps →
        g ∈ acc.newEps ∨ g ≠ G) ∧
      (∀ ev, ev ∈ (finalOf (runItems rOk today items acc)).events →
        ev ∈ acc.events ∨ (Event.guidOf ev = G → ev = Event.skipped G)) := by
  intro items
  induction items with
  | nil =>
    intro acc hG
    exact ⟨hG, fun g hg => Or.inl hg, fun ev he => Or.inl he⟩
  | cons it rest ih =>
    intro acc hG
    cases hx : extract_episode_info today it with
    | error e =>
      rw [runItems_cons_error rOk today it rest acc acc
        (stepItem_error rOk today acc it e hx)]
      exact ⟨hG, fun g hg => Or.inl hg, fun ev he => Or.inl he⟩
    | ok ep =>
      by_cases hmem : ep.guid ∈ acc.processed
      · rw [runItems_cons_ok rOk today it rest acc _
          (stepItem_skip rOk today acc it ep hx hmem)]
        obtain ⟨p1, p2, p3⟩ :=
          ih { acc with events := acc.events ++ [Event.skipped ep.guid] } hG
        refine ⟨p1, p2, ?_⟩
        intro ev he
        rcases p3 ev he with h | h
        · rw [List.mem_append] at h
          rcases h with h | h
          · exact Or.inl h
          · rw [List.mem_singleton] at h
            subst h
            exact Or.inr (fun hgd => congrArg Event.skipped hgd)
        · exact Or.inr h
      · have hne : ep.guid ≠ G := fun hc => hmem (hc ▸ hG)
        by_cases hr : rOk ep = true
        · rw [runItems_cons_ok rOk today it rest acc _
            (stepItem_render rOk today acc it ep hx hmem hr)]
          obtain ⟨p1, p2, p3⟩ :=
            ih ⟨acc.processed ++ [ep.guid], acc.newEps ++ [ep.guid],
              acc.events ++ [Event.rendered ep.guid]⟩
              (List.mem_append_left _ hG)
          refine ⟨p1, ?_, ?_⟩
          · intro g hg
            rcases p2 g hg with h | h
            · rw [List.mem_append] at h
              rcases h with h | h
              · exact Or.inl h
              · rw [List.mem_singleton] at h
                subst h
                exact Or.inr hne
            · exact Or.inr h
          · intro ev he
            rcases p3 ev he with h | h
            · rw [List.mem_append] at h
              rcases h with h | h
              · exact Or.inl h
              · rw [List.mem_singleton] at h
                subst h
                exact Or.inr (fun hgd => absurd hgd hne)
            · exact Or.inr h
        · rw [runItems_cons_ok rOk today it rest acc _
            (stepItem_renderFailed rOk today acc it ep hx hmem
              (Bool.eq_false_iff.mpr hr))]
          obtain ⟨p1, p2, p3⟩ :=
            ih { acc with events := acc.events ++ [Event.renderFailed ep.guid] } hG
          refine ⟨p1, p2, ?_⟩
          intro ev he
          rcases p3 ev he with h | h
          · rw [List.mem_append] at h
            rcases h with h | h
            · exact Or.inl h
            · rw [List.mem_singleton] at h
              subst h
              exact Or.inr (fun hgd => absurd hgd hne)
          · exact Or.inr h

/-- Loop invariant for C1, second half: the event log stays
`renderedRel`-pairwise — after a successful render of a guid, every
later event on that guid is a skip. -/
theorem runItems_pairwise_inv (rOk : Episode → Bool) (today : String) :
    ∀ (items : List Item) (acc : RunResult),
      (∀ g, Event.rendered g ∈ acc.events → g ∈ acc.processed) →
      acc.events.Pairwise renderedRel →
      (finalOf (runItems rOk today items acc)).events.Pairwise renderedRel := by
  intro items
  induction items with
  | nil => intro acc _ hp; exact hp
  | cons it rest ih =>
    intro acc hinv hp
    cases hx : extract_episode_info today it with
    | error e =>
      rw [runItems_cons_error rOk today it rest acc acc
        (stepItem_error rOk today acc it e hx)]
      exact hp
    | ok ep =>
      by_cases hmem : ep.guid ∈ acc.processed
      · rw [runItems_cons_ok rOk today it rest acc _
          (stepItem_skip rOk today acc it ep hx hmem)]
        apply ih
        · intro g hg
          rw [List.mem_append] at hg
          rcases hg with hg | hg
          · exact hinv g hg
          · rw [List.mem_singleton] at hg
            exact absurd hg (by simp)
        · rw [List.pairwise_append]
          refine ⟨hp, List.pairwise_singleton _ _, ?_⟩
          intro a ha b hb g hag hgd
          rw [List.mem_singleton] at hb
          subst hb
          exact congrArg Event.skipped hgd
      · by_cases hr : rOk ep = true
        · rw [runItems_cons_ok rOk today it rest acc _
            (stepItem_render rOk today acc it ep hx hmem hr)]
          apply ih
          · intro g hg
            rw [List.mem_append] at hg
            rcases hg with hg | hg
            · exact List.mem_append_left _ (hinv g hg)
            · rw [List.mem_singleton, Event.rendered.injEq] at hg
              exact List.mem_append_right _ (by rw [hg]; exact List.mem_singleton.mpr rfl)
          · rw [List.pairwise_append]
            refine ⟨hp, List.pairwise_singleton _ _, ?_⟩
            intro a ha b hb g hag hgd
            rw [List.mem_singleton] at hb
            subst hb
            subst hag
            have hgg : ep.guid = g := hgd
            exact absurd (hgg ▸ hinv g (by exact ha)) (hgg ▸ hmem)
        · rw [runItems_cons_ok rOk today it rest acc _
            (stepItem_renderFailed rOk today acc it ep hx hmem
              (Bool.eq_false_iff.mpr hr))]
          apply ih
          · intro g hg
            rw [List.mem_append] at hg
            rcases hg with hg | hg
            · exact hinv g hg
            · rw [List.mem_singleton] at hg
              exact absurd hg (by simp)
          · rw [List.pairwise_append]
            refine ⟨hp, List.pairwise_singleton _ _, ?_⟩
            intro a ha b hb g hag hgd
            rw [List.mem_singleton] at hb
            subst hb
            subst hag
            have hgg : ep.guid = g := hgd
            exact absurd (hgg ▸ hinv g (by exact ha)) (hgg ▸ hmem)

/-- CLAIM C1: a guid already in the loaded processed set is never
rendered and never appended to the new-episodes list — every event on
it is a skip — and, for any guid, once an entry with that guid has been
recorded (successfully rendered) in the run, every later entry with the
same guid is skipped. -/
theorem claim_c1_dedup (rOk : Episode → Bool) (today : String)
    (items : List Item) (init : List (Option String)) (G : Option String)
    (hG : G ∈ init) :
    (G ∉ (finalOf (runItems rOk today items (initialRun init))).newEps ∧
     (∀ ev ∈ (finalOf (runItems rOk today items (initialRun init))).events,
        Event.guidOf ev = G → ev = Event.skipped G)) ∧
    (finalOf (runItems rOk today items (initialRun init))).events.Pairwise
      renderedRel := by
  have h1 := runItems_skip_inv rOk today G items (initialRun init) hG
  have h2 := runItems_pairwise_inv rOk today items (initialRun init)
    (fun g hg => absurd hg (by simp [initialRun])) (by simp [initialRun])
  refine ⟨⟨?_, ?_⟩, h2⟩
  · intro hmem
    rcases h1.2.1 G hmem with h | h
    · simp [initialRun] at h
    · exact h rfl
  · intro ev he hgd
    rcases h1.2.2 ev he with h | h
    · simp [initialRun] at h
    · exact h hgd

/-- Witness for C1: a three-entry run whose first and third entries
carry a guid already in the loaded state. -/
theorem claim_c1_witness :
    (some "g1" ∉ (finalOf (runItems (fun _ => true) "2026-01-01"
        [itR1, itR2, itR1] (initialRun [some "g1"]))).newEps ∧
     (∀ ev ∈ (finalOf (runItems (fun _ => true) "2026-01-01"
        [itR1, itR2, itR1] (initialRun [some "g1"]))).events,
        Event.guidOf ev = some "g1" → ev = Event.skipped (some "g1"))) ∧
    (finalOf (runItems (fun _ => true) "2026-01-01" [itR1, itR2, itR1]
      (initialRun [some "g1"]))).events.Pairwise renderedRel :=
  claim_c1_dedup (fun _ => true) "2026-01-01" [itR1, itR2, itR1]
    [some "g1"] (some "g1") (by decide)

/-- When every item extracts, the run completes and logs exactly one
event per feed entry. -/
theorem runItems_total (rOk : Episode → Bool) (today : String) :
    ∀ (items : List Item) (acc : RunResult),
      (∀ it ∈ items, extractOkB today it = true) →
      runOk (runItems rOk today items acc) = true ∧
      (finalOf (runItems rOk today items acc)).events.length =
        acc.events.length + items.length := by
  intro items
  induction items with
  | nil => intro acc _; exact ⟨rfl, by simp [runItems, finalOf]⟩
  | cons it rest ih =>
    intro acc hall
    have hrest : ∀ it2 ∈ rest, extractOkB today it2 = true :=
      fun it2 h2 => hall it2 (List.mem_cons_of_mem _ h2)
    have hx1 : extractOkB today it = true := hall it (List.mem_cons_self _ _)
    cases hx : extract_episode_info today it with
    | error e =>
      rw [extractOkB, hx] at hx1
      exact absurd hx1 (by simp)
    | ok ep =>
      by_cases hmem : ep.guid ∈ acc.processed
      · rw [runItems_cons_ok rOk today it rest acc _
          (stepItem_skip rOk today acc it ep hx hmem)]
        obtain ⟨q1, q2⟩ :=
          ih { acc with events := acc.events ++ [Event.skipped ep.guid] } hrest
        refine ⟨q1, ?_⟩
        rw [q2]
        simp only [List.length_append, List.length_cons, List.length_nil]
        omega
      · by_cases hr : rOk ep = true
        · rw [runItems_cons_ok rOk today it rest acc _
            (stepItem_render rOk today acc it ep hx hmem hr)]
          obtain ⟨q1, q2⟩ :=
            ih ⟨acc.processed ++ [ep.guid], acc.newEps ++ [ep.guid],
              acc.events ++ [Event.rendered ep.guid]⟩ hrest
          refine ⟨q1, ?_⟩
          rw [q2]
          simp only [List.length_append, List.length_cons, List.length_nil]
          omega
        · rw [runItems_cons_ok rOk today it rest acc _
            (stepItem_renderFailed rOk today acc it ep hx hmem
              (Bool.eq_false_iff.mpr hr))]
          obtain ⟨q1, q2⟩ :=
            ih { acc with events := acc.events ++ [Event.renderFailed ep.guid] }
              hrest
          refine ⟨q1, ?_⟩
          rw [q2]
          simp only [List.length_append, List.length_cons, List.length_nil]
          omega

/-- Membership characterisation: a guid is in `new_episodes` exactly
when a successful render logged it, and in the processed set exactly
when it was loaded or successfully rendered. -/
theorem runItems_membership (rOk : Episode → Bool) (today : String)
    (init : List (Option String)) (g : Option String) :
    ∀ (items : List Item) (acc : RunResult),
      (g ∈ acc.newEps ↔ Event.rendered g ∈ acc.events) →
      (g ∈ acc.processed ↔ g ∈ init ∨ Event.rendered g ∈ acc.events) →
      ((g ∈ (finalOf (runItems rOk today items acc)).newEps ↔
          Event.rendered g ∈ (finalOf (runItems rOk today items acc)).events) ∧
       (g ∈ (finalOf (runItems rOk today items acc)).processed ↔
          g ∈ init ∨
            Event.rendered g ∈ (finalOf (runItems rOk today items acc)).events)) := by
  intro items
  induction items with
  | nil => intro acc h1 h2; exact ⟨h1, h2⟩
  | cons it rest ih =>
    intro acc h1 h2
    cases hx : extract_episode_info today it with
    | error e =>
      rw [runItems_cons_error rOk today it rest acc acc
        (stepItem_error rOk today acc it e hx)]
      exact ⟨h1, h2⟩
    | ok ep =>
      by_cases hmem : ep.guid ∈ acc.processed
      · rw [runItems_cons_ok rOk today it rest acc _
          (stepItem_skip rOk today acc it ep hx hmem)]
        apply ih
        · simpa using h1
        · simpa using h2
      · by_cases hr : rOk ep = true
        · rw [runItems_cons_ok rOk today it rest acc _
            (stepItem_render rOk today acc it ep hx hmem hr)]
          apply ih
          · by_cases hg : g = ep.guid
            · subst hg; simp
            · simpa [hg] using h1
          · by_cases hg : g = ep.guid
            · subst hg; simp
            · simpa [hg] using h2
        · rw [runItems_cons_ok rOk today it rest acc _
            (stepItem_renderFailed rOk today acc it ep hx hmem
              (Bool.eq_false_iff.mpr hr))]
          apply ih
          · simpa using h1
          · simpa using h2

/-- CLAIM C8: with extraction succeeding on every entry, a run never
aborts on a render failure, logs one event per entry (the loop
continues past failures), and a guid enters the processed set or the
new-episodes list exactly when its entry was successfully rendered (or
was already loaded) — a failed render records nothing, so the episode
is retried on the next run. -/
theorem claim_c8_render_failure (rOk : Episode → Bool) (today : String)
    (items : List Item) (init : List (Option String))
    (hx : ∀ it ∈ items, extractOkB today it = true) :
    runOk (runItems rOk today items (initialRun init)) = true ∧
    (finalOf (runItems rOk today items (initialRun init))).events.length =
      items.length ∧
    ∀ g,
      (g ∈ (finalOf (runItems rOk today items (initialRun init))).newEps ↔
        Event.rendered g ∈
          (finalOf (runItems rOk today items (initialRun init))).events) ∧
      (g ∈ (finalOf (runItems rOk today items (initialRun init))).processed ↔
        g ∈ init ∨
          Event.rendered g ∈
            (finalOf (runItems rOk today items (initialRun init))).events) := by
  have ht := runItems_total rOk today items (initialRun init) hx
  refine ⟨ht.1, ?_, ?_⟩
  · have h2 := ht.2
    simpa [initialRun] using h2
  · intro g
    exact runItems_membership rOk today init g items (initialRun init)
      (by simp [initialRun]) (by simp [initialRun])

/-- Witness for C8: a two-entry run in which every render fails — the
run completes, both entries are processed, and nothing is recorded. -/
theorem claim_c8_witness :
    runOk (runItems (fun _ => false) "2026-01-01" [itR1, itR2]
      (initialRun [])) = true ∧
    (finalOf (runItems (fun _ => false) "2026-01-01" [itR1, itR2]
      (initialRun []))).events.length = [itR1, itR2].length ∧
    ∀ g,
      (g ∈ (finalOf (runItems (fun _ => false) "2026-01-01" [itR1, itR2]
          (initialRun []))).newEps ↔
        Event.rendered g ∈ (finalOf (runItems (fun _ => false) "2026-01-01"
          [itR1, itR2] (initialRun []))).events) ∧
      (g ∈ (finalOf (runItems (fun _ => false) "2026-01-01" [itR1, itR2]
          (initialRun []))).processed ↔
        g ∈ ([] : List (Option String)) ∨
          Event.rendered g ∈ (finalOf (runItems (fun _ => false) "2026-01-01"
            [itR1, itR2] (initialRun []))).events) :=
  claim_c8_render_failure (fun _ => false) "2026-01-01" [itR1, itR2] []
    (by decide)

/-- Shape of `dropTrailDash` on a cons cell whose tail reduces to the
empty list. -/
theorem dropTrailDash_cons_nil (a : Char) (as : List Char)
    (hr : dropTrailDash as = []) :
    dropTrailDash (a :: as) = if a = '-' then [] else [a] := by
  unfold dropTrailDash
  rw [hr]

/-- Shape of `dropTrailDash` on a cons cell whose tail reduces to a
cons cell. -/
theorem dropTrailDash_cons_cons (a : Char) (as : List Char) (r : Char)
    (rs : List Char) (hr : dropTrailDash as = r :: rs) :
    dropTrailDash (a :: as) = a :: r :: rs := by
  unfold dropTrailDash
  rw [hr]

/-- The head of a `dropWhile` result falsifies the predicate. -/
theorem head_dropWhile_not (p : Char → Bool) :
    ∀ (l : List Char) (x : Char), (l.dropWhile p).head? = some x →
      p x = false := by
  intro l
  induction l with
  | nil => intro x h; simp [List.dropWhile] at h
  | cons c cs ih =>
    intro x h
    by_cases hp : p c = true
    · rw [List.dropWhile_cons, if_pos hp] at h
      exact ih x h
    · rw [List.dropWhile_cons, if_neg hp, List.head?_cons,
        Option.some.injEq] at h
      subst h
      exact Bool.eq_false_iff.mpr hp

/-- `dropTrailDash` is empty or preserves the head. -/
theorem dropTrailDash_head (l : List Char) :
    dropTrailDash l = [] ∨ (dropTrailDash l).head? = l.head? := by
  cases l with
  | nil => exact Or.inl rfl
  | cons a as =>
    cases hr : dropTrailDash as with
    | nil =>
      by_cases ha : a = '-'
      · rw [dropTrailDash_cons_nil a as hr, if_pos ha]
        exact Or.inl rfl
      · rw [dropTrailDash_cons_nil a as hr, if_neg ha]
        exact Or.inr rfl
    | cons r rs =>
      rw [dropTrailDash_cons_cons a as r rs hr]
      exact Or.inr rfl

/-- The last character after `dropTrailDash` is never a hyphen. -/
theorem dropTrailDash_last :
    ∀ (l : List Char) (x : Char), (dropTrailDash l).getLast? = some x →
      isDashC x = false := by
  intro l
  induction l with
  | nil => intro x h; simp [dropTrailDash] at h
  | cons a as ih =>
    intro x h
    cases hr : dropTrailDash as with
    | nil =>
      rw [dropTrailDash_cons_nil a as hr] at h
      by_cases ha : a = '-'
      · rw [if_pos ha] at h
        simp at h
      · rw [if_neg ha] at h
        rw [List.getLast?_singleton, Option.some.injEq] at h
        subst h
        simp [isDashC, ha]
    | cons r rs =>
      rw [dropTrailDash_cons_cons a as r rs hr,
        List.getLast?_cons_cons] at h
      exact ih x (by rw [hr]; exact h)

/-- Members of a `dropTrailDash` result are members of the input. -/
theorem mem_dropTrailDash :
    ∀ (l : List Char) (c : Char), c ∈ dropTrailDash l → c ∈ l := by
  intro l
  induction l with
  | nil => intro c h; simp [dropTrailDash] at h
  | cons a as ih =>
    intro c h
    cases hr : dropTrailDash as with
    | nil =>
      rw [dropTrailDash_cons_nil a as hr] at h
      by_cases ha : a = '-'
      · rw [if_pos ha] at h
        cases h
      · rw [if_neg ha, List.mem_singleton] at h
        subst h
        exact List.mem_cons_self _ _
    | cons r rs =>
      rw [dropTrailDash_cons_cons a as r rs hr] at h
      rcases List.mem_cons.mp h with h1 | h1
      · subst h1; exact List.mem_cons_self _ _
      · exact List.mem_cons_of_mem _ (ih c (by rw [hr]; exact h1))

/-- Members of a `dropWhile` result are members of the input. -/
theorem mem_dropWhileL (p : Char → Bool) (l : List Char) (c : Char)
    (h : c ∈ l.dropWhile p) : c ∈ l :=
  List.Sublist.mem h (List.dropWhile_sublist p)

/-- A character in a `collapseRuns` result is either the inserted
hyphen or a kept input character outside the hyphen/whitespace class. -/
theorem mem_collapseRuns :
    ∀ (l : List Char) (b : Bool) (c : Char), c ∈ collapseRuns b l →
      c = '-' ∨ (c ∈ l ∧ isDashSpace c = false) := by
  intro l
  induction l with
  | nil => intro b c h; simp [collapseRuns] at h
  | cons a as ih =>
    intro b c h
    by_cases ha : isDashSpace a = true
    · cases b with
      | true =>
        rw [show collapseRuns true (a :: as) = collapseRuns true as from by
          simp [collapseRuns, ha]] at h
        rcases ih true c h with h1 | ⟨h2, h3⟩
        · exact Or.inl h1
        · exact Or.inr ⟨List.mem_cons_of_mem _ h2, h3⟩
      | false =>
        rw [show collapseRuns false (a :: as) = '-' :: collapseRuns true as
          from by simp [collapseRuns, ha]] at h
        rcases List.mem_cons.mp h with h1 | h1
        · exact Or.inl h1
        · rcases ih true c h1 with h2 | ⟨h2, h3⟩
          · exact Or.inl h2
          · exact Or.inr ⟨List.mem_cons_of_mem _ h2, h3⟩
    · have ha2 : isDashSpace a = false := Bool.eq_false_iff.mpr ha
      rw [show collapseRuns b (a :: as) = a :: collapseRuns false as from by
        simp [collapseRuns, ha2]] at h
      rcases List.mem_cons.mp h with h1 | h1
      · subst h1
        exact Or.inr ⟨List.mem_cons_self _ _, ha2⟩
      · rcases ih false c h1 with h2 | ⟨h2, h3⟩
        · exact Or.inl h2
        · exact Or.inr ⟨List.mem_cons_of_mem _ h2, h3⟩

/-- A character outside the hyphen/whitespace class is not a hyphen. -/
theorem isDashC_false_of_not_dashSpace (c : Char)
    (h : isDashSpace c = false) : isDashC c = false := by
  unfold isDashSpace at h
  rcases Bool.or_eq_false_iff.mp h with ⟨h1, -⟩
  exact h1

/-- Building block: consing a character onto a list with no adjacent
hyphens keeps the property when the new head pair is safe. -/
theorem noAdjDash_cons_of (a : Char) (l : List Char)
    (h1 : noAdjDash l = true)
    (h2 : ∀ x, l.head? = some x → (isDashC a && isDashC x) = false) :
    noAdjDash (a :: l) = true := by
  cases l with
  | nil => rfl
  | cons b bs =>
    have hp := h2 b rfl
    unfold noAdjDash
    rw [Bool.and_eq_true, Bool.not_eq_true']
    exact ⟨hp, h1⟩

/-- The property restricts to the tail. -/
theorem noAdjDash_tail (a : Char) (l : List Char)
    (h : noAdjDash (a :: l) = true) : noAdjDash l = true := by
  cases l with
  | nil => rfl
  | cons b bs =>
    unfold noAdjDash at h
    rw [Bool.and_eq_true] at h
    exact h.2

/-- The head pair of a list with no adjacent hyphens is safe. -/
theorem noAdjDash_head_pair (a b : Char) (l : List Char)
    (h : noAdjDash (a :: b :: l) = true) :
    (isDashC a && isDashC b) = false := by
  unfold noAdjDash at h
  rw [Bool.and_eq_true, Bool.not_eq_true'] at h
  exact h.1

/-- `collapseRuns` produces no adjacent hyphens, and in the
run-in-progress state its output never starts with a hyphen. -/
theorem collapseRuns_props :
    ∀ l : List Char,
      (∀ b, noAdjDash (collapseRuns b l) = true) ∧
      (∀ x, (collapseRuns true l).head? = some x → isDashC x = false) := by
  intro l
  induction l with
  | nil =>
    refine ⟨fun b => rfl, fun x h => ?_⟩
    simp [collapseRuns] at h
  | cons a as ih =>
    obtain ⟨ih1, ih2⟩ := ih
    by_cases ha : isDashSpace a = true
    · have e1 : collapseRuns true (a :: as) = collapseRuns true as := by
        simp [collapseRuns, ha]
      have e2 : collapseRuns false (a :: as) = '-' :: collapseRuns true as := by
        simp [collapseRuns, ha]
      refine ⟨fun b => ?_, fun x h => ?_⟩
      · cases b with
        | true => rw [e1]; exact ih1 true
        | false =>
          rw [e2]
          apply noAdjDash_cons_of
          · exact ih1 true
          · intro x hx
            rw [ih2 x hx, Bool.and_false]
      · rw [e1] at h
        exact ih2 x h
    · have ha2 : isDashSpace a = false := Bool.eq_false_iff.mpr ha
      have hd : isDashC a = false := isDashC_false_of_not_dashSpace a ha2
      have e3 : ∀ b, collapseRuns b (a :: as) = a :: collapseRuns false as := by
        intro b
        simp [collapseRuns, ha2]
      refine ⟨fun b => ?_, fun x h => ?_⟩
      · rw [e3 b]
        apply noAdjDash_cons_of
        · exact ih1 false
        · intro x hx
          rw [hd, Bool.false_and]
      · rw [e3 true, List.head?_cons, Option.some.injEq] at h
        subst h
        exact hd

/-- No adjacent hyphens survives `dropWhile`. -/
theorem noAdjDash_dropWhile (p : Char → Bool) :
    ∀ l : List Char, noAdjDash l = true →
      noAdjDash (l.dropWhile p) = true := by
  intro l
  induction l with
  | nil => intro h; exact h
  | cons c cs ih =>
    intro h
    by_cases hp : p c = true
    · rw [List.dropWhile_cons, if_pos hp]
      exact ih (noAdjDash_tail c cs h)
    · rw [List.dropWhile_cons, if_neg hp]
      exact h

/-- No adjacent hyphens survives `dropTrailDash`. -/
theorem noAdjDash_dropTrailDash :
    ∀ l : List Char, noAdjDash l = true →
      noAdjDash (dropTrailDash l) = true := by
  intro l
  induction l with
  | nil => intro h; exact h
  | cons a as ih =>
    intro h
    cases hr : dropTrailDash as with
    | nil =>
      rw [dropTrailDash_cons_nil a as hr]
      by_cases ha : a = '-'
      · rw [if_pos ha]; rfl
      · rw [if_neg ha]; rfl
    | cons r rs =>
      rw [dropTrailDash_cons_cons a as r rs hr]
      apply noAdjDash_cons_of
      · rw [← hr]
        exact ih (noAdjDash_tail a as h)
      · intro x hx
        rw [List.head?_cons, Option.some.injEq] at hx
        subst hx
        rcases dropTrailDash_head as with hnil | hhead
        · rw [hr] at hnil; cases hnil
        · rw [hr, List.head?_cons] at hhead
          cases as with
          | nil => simp at hhead
          | cons a2 as2 =>
            rw [List.head?_cons, Option.some.injEq] at hhead
            rw [hhead]
            exact noAdjDash_head_pair a a2 as2 h

/-- Transfer of a decidable pointwise character property from the
ASCII range. -/
theorem ascii_all (P : Char → Prop) [DecidablePred P]
    (h : ∀ n : Fin 128, P (Char.ofNat n.val)) :
    ∀ c : Char, c.toNat < 128 → P c := by
  intro c hc
  have h2 := h ⟨c.toNat, hc⟩
  simpa [Char.ofNat_toNat] using h2

/-- Pointwise ASCII fact: a lowered character kept by the `slugify`
filter and outside the hyphen/whitespace class is a lowercase letter, a
digit, a hyphen or an underscore. -/
theorem goodChar_pointwise :
    ∀ c : Char, c.toNat < 128 →
      keepChar (pyLower c) = true → isDashSpace (pyLower c) = false →
      goodChar (pyLower c) = true := by
  exact ascii_all
    (fun c => keepChar (pyLower c) = true → isDashSpace (pyLower c) = false →
      goodChar (pyLower c) = true)
    (by decide)

/-- CLAIM C6 (amended): for ASCII input, `slugify` returns only
lowercase letters, digits, hyphens and underscores (the underscore is
kept by `\w`), with no leading or trailing hyphen and no two adjacent
hyphens; the two concrete examples of the claim hold. -/
theorem claim_c6_slugify (s : String)
    (hascii : ∀ c ∈ s.data, c.toNat < 128) :
    (∀ c ∈ (slugify s).data, goodChar c = true) ∧
    (∀ c, (slugify s).data.head? = some c → c ≠ '-') ∧
    (∀ c, (slugify s).data.getLast? = some c → c ≠ '-') ∧
    noAdjDash (slugify s).data = true ∧
    slugify "Episode #123: Data Science!" = "episode-123-data-science" ∧
    slugify "" = "" := by
  have hdata : (slugify s).data =
      dropTrailDash
        ((collapseRuns false
          ((s.data.map pyLower).filter keepChar)).dropWhile isDashC) := rfl
  refine ⟨?_, ?_, ?_, ?_, by decide, by decide⟩
  · intro c hc
    rw [hdata] at hc
    have hc2 := mem_dropWhileL isDashC _ c (mem_dropTrailDash _ c hc)
    rcases mem_collapseRuns _ false c hc2 with h1 | ⟨h2, h3⟩
    · subst h1; decide
    · rw [List.mem_filter] at h2
      obtain ⟨hmem, hkeep⟩ := h2
      rw [List.mem_map] at hmem
      obtain ⟨c0, hc0, hlow⟩ := hmem
      subst hlow
      exact goodChar_pointwise c0 (hascii c0 hc0) hkeep h3
  · intro c hc
    rw [hdata] at hc
    rcases dropTrailDash_head
      ((collapseRuns false
        ((s.data.map pyLower).filter keepChar)).dropWhile isDashC) with
      hnil | hhead
    · rw [hnil] at hc; cases hc
    · rw [hhead] at hc
      have := head_dropWhile_not isDashC _ c hc
      simpa [isDashC] using this
  · intro c hc
    rw [hdata] at hc
    have := dropTrailDash_last _ c hc
    simpa [isDashC] using this
  · rw [hdata]
    exact noAdjDash_dropTrailDash _
      (noAdjDash_dropWhile isDashC _ ((collapseRuns_props _).1 false))

/-- CLAIM C6 (counterexample): `slugify "_"` keeps the underscore, so
the output is not made of lowercase letters, digits and hyphens only. -/
theorem claim_c6_counterexample :
    slugify "_" = "_" ∧
      ¬('_'.isLower = true ∨ '_'.isDigit = true ∨ '_' = '-') := by
  exact ⟨by decide, by decide⟩

/-- Witness for the amended C6 at the claim's own concrete example. -/
theorem claim_c6_witness :
    (∀ c ∈ (slugify "Episode #123: Data Science!").data,
      goodChar c = true) ∧
    (∀ c, (slugify "Episode #123: Data Science!").data.head? = some c →
      c ≠ '-') ∧
    (∀ c, (slugify "Episode #123: Data Science!").data.getLast? = some c →
      c ≠ '-') ∧
    noAdjDash (slugify "Episode #123: Data Science!").data = true ∧
    slugify "Episode #123: Data Science!" = "episode-123-data-science" ∧
    slugify "" = "" :=
  claim_c6_slugify "Episode #123: Data Science!" (by decide)

end FetchPodcasts
